import Mathlib

/-!
Shallow embedding of the WinPM package manager (src/winpm.py) for checking
the natural-language specification against the code.

Modelling conventions:
  - JSON dictionaries (config, registry, repository manifests) are
    association lists of String keys, preserving insertion order exactly as
    Python 3.7+ dicts do.  Dict assignment is dictInsert (replace in place
    or append), del is dictErase.
  - The filesystem is abstracted to the pieces the tool touches: the cached
    repository manifest files (repoFiles), the registry file contents
    (registry), the set of per-package install directories (installDirs,
    as path strings), the entries directly under the cache directory
    (cacheEntries, each a name plus an is-file flag, since cleanup
    distinguishes files from directories), and the shim files (shims, one
    per package name).
  - Network downloads, archive extraction and hashing are external
    collaborators; an Env of oracles says which downloads succeed, which
    archives extract cleanly, and what the content hash of a cached archive
    is.
  - Python exceptions are modelled with Except PyErr; the recursion limit
    (RecursionError) is modelled by a fuel parameter on the recursive
    install_package, with fuel exhaustion returning recursionError.
  - print output relevant to the claims (dependency warnings) and the
    registry commit order are recorded as an event trace in the world.
  - datetime.now() for install_date is modelled by a session clock counter
    in the world, bumped at each registration.
-/

/-- A package descriptor as it appears in a repository manifest
(repository.json).  Fields mirror the keys the code reads: version is read
with dict.get (so optional), url is read with direct subscript (required by
the manifest schema in the spec), executable is read with dict.get,
dependencies with dict.get defaulting to the empty list. -/
structure PackageDescriptor where
  version : Option String
  url : String
  executable : Option String
  dependencies : List String
  deriving Repr, DecidableEq

/-- A cached repository manifest: the mapping under its packages key. -/
structure Manifest where
  packages : List (String × PackageDescriptor)
  deriving Repr, DecidableEq

/-- A configured repository entry: url plus the priority number. -/
structure RepoInfo where
  url : String
  priority : Int
  deriving Repr, DecidableEq

/-- The config.json contents that the core logic reads (the settings block
is only used by the transport layer, which is abstracted away). -/
structure Config where
  repositories : List (String × RepoInfo)
  deriving Repr, DecidableEq

/-- A registry entry (packages.json value) exactly as install_package
builds it. -/
structure InstalledPackage where
  version : String
  path : String
  executable : String
  repository : String
  installDate : Nat
  hash : String
  deriving Repr, DecidableEq

/-- An entry directly under the cache directory: its name and whether it is
a regular file (cleanup only unlinks regular files). -/
structure CacheEntry where
  name : String
  isFile : Bool
  deriving Repr, DecidableEq

/-- Observable events of a run that the claims talk about: a dependency
warning printed by resolve_dependencies, and a registry commit performed by
save_packages inside install_package. -/
inductive Event where
  | warnedMissingDep (dep : String)
  | registered (name : String)
  deriving Repr, DecidableEq

/-- Python exceptions that the modelled code can raise: TypeError from
subscripting the None returned by load_repository, KeyError from a direct
dict subscript on a missing key, RecursionError from exceeding the
interpreter recursion limit. -/
inductive PyErr where
  | typeError
  | keyError
  | recursionError
  deriving Repr, DecidableEq

/-- The persistent state the tool reads and writes. -/
structure World where
  config : Config
  repoFiles : List (String × Manifest)
  registry : List (String × InstalledPackage)
  installDirs : List String
  cacheEntries : List CacheEntry
  shims : List String
  events : List Event
  clock : Nat
  deriving Repr, DecidableEq

/-- Outcome oracles for the external collaborators: whether the download of
a url succeeds, whether extracting the archive cached under a given file
name succeeds, and the content hash of that cached archive. -/
structure Env where
  downloadOk : String → Bool
  extractOk : String → Bool
  hashOf : String → String

/-- Equality of Except values is decidable when both component types have
decidable equality; needed so concrete runs can be checked with decide. -/
instance {ε α : Type} [DecidableEq ε] [DecidableEq α] : DecidableEq (Except ε α) := fun x y =>
  match x, y with
  | Except.error e1, Except.error e2 => decidable_of_iff (e1 = e2) (by simp)
  | Except.ok a1, Except.ok a2 => decidable_of_iff (a1 = a2) (by simp)
  | Except.error _, Except.ok _ => isFalse (by simp)
  | Except.ok _, Except.error _ => isFalse (by simp)

/-- Python dict assignment on an association list: replace the binding in
place if the key is present, append otherwise. -/
def dictInsert {α : Type} (k : String) (v : α) : List (String × α) → List (String × α)
  | [] => [(k, v)]
  | (k0, v0) :: rest =>
    if k0 = k then (k, v) :: rest else (k0, v0) :: dictInsert k v rest

/-- Python del on an association list: drop the binding for the key. -/
def dictErase {α : Type} (k : String) : List (String × α) → List (String × α)
  | [] => []
  | (k0, v0) :: rest =>
    if k0 = k then rest else (k0, v0) :: dictErase k rest

/-- mkdir with exist_ok, and shim-file creation: add the path if absent. -/
def addPath (p : String) (ps : List String) : List String :=
  if p ∈ ps then ps else ps ++ [p]

/-- Writing the downloaded archive into the cache: overwrite the entry of
that name as a regular file, or append a fresh file entry. -/
def putCacheFile (n : String) (es : List CacheEntry) : List CacheEntry :=
  if es.any (fun e => e.name = n) then
    es.map (fun e => if e.name = n then { name := n, isFile := true } else e)
  else
    es ++ [{ name := n, isFile := true }]

/-- The per-package install directory path, install_dir joined with the
package name. -/
def installPath (packageName : String) : String :=
  "packages/" ++ packageName

/-- Python truthiness-based defaulting, version or fallback: None and the
empty string both fall back. -/
def pyOr (v : Option String) (fallback : String) : String :=
  match v with
  | none => fallback
  | some s => if s = "" then fallback else s

/-- load_repository: read the cached manifest file for the repository, None
when the file does not exist. -/
def load_repository (w : World) (repoName : String) : Option Manifest :=
  w.repoFiles.lookup repoName

/-- The loop body of find_package over the configured repository list, in
iteration (insertion) order: skip repositories whose manifest is missing,
collect the descriptor (tagged with the repository name) from each manifest
that contains the package. -/
def findIn (w : World) (packageName : String) :
    List (String × RepoInfo) → List (PackageDescriptor × String)
  | [] => []
  | (rn, _) :: rest =>
    match load_repository w rn with
    | none => findIn w packageName rest
    | some repoData =>
      match repoData.packages.lookup packageName with
      | none => findIn w packageName rest
      | some d => (d, rn) :: findIn w packageName rest

/-- find_package: collect the matching descriptors across all configured
repositories, in configuration iteration order.  The priority numbers are
not consulted. -/
def find_package (w : World) (packageName : String) : List (PackageDescriptor × String) :=
  findIn w packageName w.config.repositories

/-- resolve_dependencies over the declared dependency list: a dependency
with at least one descriptor contributes its first find_package match; a
dependency with none is dropped with a printed warning (recorded as an
event). -/
def resolveDepsList (w : World) :
    List String → List (String × (PackageDescriptor × String)) × List Event
  | [] => ([], [])
  | dep :: rest =>
    let tail := resolveDepsList w rest
    match find_package w dep with
    | [] => (tail.1, Event.warnedMissingDep dep :: tail.2)
    | first :: _ => ((dep, first) :: tail.1, tail.2)

/-- resolve_dependencies: resolve the declared dependencies of a descriptor,
returning the resolved list and the warnings emitted. -/
def resolve_dependencies (w : World) (info : PackageDescriptor) :
    List (String × (PackageDescriptor × String)) × List Event :=
  resolveDepsList w info.dependencies

/-- The dependency loop of install_package, parameterized over the step
that installs one dependency: install each resolved dependency in order,
ignoring the boolean results but letting exceptions propagate. -/
def depLoop (step : World → String → Except PyErr Bool × World) :
    World → List String → Except PyErr Unit × World
  | w, [] => (Except.ok (), w)
  | w, dep :: rest =>
    match step w dep with
    | (Except.error e, w2) => (Except.error e, w2)
    | (Except.ok _, w2) => depLoop step w2 rest

/-- install_package, lines 167 to 233 of src/winpm.py, with a fuel
parameter modelling the interpreter recursion limit (fuel exhaustion is
RecursionError).  Steps in order: load the registry; reject when the
package is already registered; resolve the descriptor (explicit repository
pin, where a missing cached manifest raises TypeError by subscripting
None, or first find_package match, where an empty result returns False);
resolve and recursively install dependencies with the return values
ignored but exceptions propagated; download the archive into the cache
(False on failure); create the install directory; extract (False on
failure, directory left in place); commit the registry entry built from
the registry snapshot loaded at entry; create the shim. -/
def install_package (env : Env) : Nat → World → String → Option String → Option String →
    Except PyErr Bool × World
  | 0, w, _, _, _ => (Except.error PyErr.recursionError, w)
  | Nat.succ fuel, w, packageName, versionArg, repoName =>
    let packages := w.registry
    if (packages.lookup packageName).isSome then
      (Except.ok false, w)
    else
      let pinfoR : Except PyErr (Option (PackageDescriptor × Option String)) :=
        match repoName with
        | some r =>
          match load_repository w r with
          | none => Except.error PyErr.typeError
          | some repoData =>
            Except.ok ((repoData.packages.lookup packageName).map (fun d => (d, none)))
        | none =>
          match find_package w packageName with
          | [] => Except.ok none
          | (d, rn) :: _ => Except.ok (some (d, some rn))
      match pinfoR with
      | Except.error e => (Except.error e, w)
      | Except.ok none => (Except.ok false, w)
      | Except.ok (some (d, repoField)) =>
        let rd := resolve_dependencies w d
        let w1 : World := { w with events := w.events ++ rd.2 }
        match depLoop (fun w2 depName => install_package env fuel w2 depName none none)
            w1 (rd.1.map Prod.fst) with
        | (Except.error e, w2) => (Except.error e, w2)
        | (Except.ok _, w2) =>
          let version := pyOr versionArg (d.version.getD "1.0.0")
          let dpath := packageName ++ "_" ++ version ++ ".zip"
          if env.downloadOk d.url then
            let w3 := { w2 with cacheEntries := putCacheFile dpath w2.cacheEntries }
            let w4 := { w3 with installDirs := addPath (installPath packageName) w3.installDirs }
            if env.extractOk dpath then
              let entry : InstalledPackage := {
                version := version
                path := installPath packageName
                executable := d.executable.getD (packageName ++ ".exe")
                repository := repoField.getD "unknown"
                installDate := w4.clock
                hash := env.hashOf dpath }
              let w5 := { w4 with
                registry := dictInsert packageName entry packages
                events := w4.events ++ [Event.registered packageName]
                clock := w4.clock + 1 }
              let w6 := { w5 with shims := addPath packageName w5.shims }
              (Except.ok true, w6)
            else
              (Except.ok false, w4)
          else
            (Except.ok false, w2)

/-- uninstall, lines 263 to 286 of src/winpm.py: False and no change when
the package is not registered; otherwise remove the install directory named
by the stored path (if it exists), remove the shim file (if it exists),
delete the registry entry and save. -/
def uninstall (w : World) (packageName : String) : Bool × World :=
  let packages := w.registry
  match packages.lookup packageName with
  | none => (false, w)
  | some entry =>
    let dirs := w.installDirs.filter (fun p => p ≠ entry.path)
    let shims2 := w.shims.filter (fun s => s ≠ packageName)
    let registry2 := dictErase packageName packages
    (true, { w with installDirs := dirs, shims := shims2, registry := registry2 })

/-- cleanup, lines 383 to 389 of src/winpm.py: unlink every entry directly
under the cache directory that is a regular file; directories are left in
place. -/
def cleanup (w : World) : World :=
  { w with cacheEntries := w.cacheEntries.filter (fun e => !e.isFile) }

/-- A line of the no-argument update report. -/
structure UpdateReport where
  name : String
  installedVersion : String
  availableVersion : String
  deriving Repr, DecidableEq

/-- The loop of the no-argument update, lines 373 to 381 of src/winpm.py:
for each registry entry in order, look the name up with find_package; when
there is a match and the first descriptor reports a version string
different from the installed one, report it.  The available version is read
with a direct subscript, so a first descriptor without a version key raises
KeyError.  The function only reads state and prints. -/
def updateLoop (w : World) : List (String × InstalledPackage) → Except PyErr (List UpdateReport)
  | [] => Except.ok []
  | (n, e) :: rest =>
    match find_package w n with
    | [] => updateLoop w rest
    | (d, _) :: _ =>
      match d.version with
      | none => Except.error PyErr.keyError
      | some av =>
        if av ≠ e.version then
          (updateLoop w rest).map (fun l => { name := n, installedVersion := e.version, availableVersion := av } :: l)
        else
          updateLoop w rest

/-- The no-argument update check: iterate the registry.  Pure read of the
world, so no world is returned. -/
def update_check (w : World) : Except PyErr (List UpdateReport) :=
  updateLoop w w.registry

/-- The descriptor the code itself treats as best available for a name: the
first find_package match. -/
def bestAvailable (w : World) (name : String) : Option (PackageDescriptor × String) :=
  (find_package w name).head?

/-- The descriptor a single repository provides for a name, through its
cached manifest; none when the manifest is missing or lacks the name. -/
def providesDesc (w : World) (repoName : String) (packageName : String) :
    Option PackageDescriptor :=
  (load_repository w repoName).bind (fun m => m.packages.lookup packageName)

/-! ## Concrete fixtures used by counterexamples, bug evaluations and witnesses -/

/-- An environment where every download and extraction succeeds. -/
def sampleEnvOk : Env :=
  { downloadOk := fun _ => true, extractOk := fun _ => true, hashOf := fun _ => "h0" }

/-- An environment where downloads succeed but every archive is corrupt, so
extraction fails. -/
def sampleEnvBadArchive : Env :=
  { downloadOk := fun _ => true, extractOk := fun _ => false, hashOf := fun _ => "h0" }

/-- A single configured repository named main. -/
def mainRepoCfg : Config := { repositories := [("main", { url := "u/", priority := 1 })] }

/-- A dependency-free package descriptor. -/
def descPlain : PackageDescriptor :=
  { version := some "1.0", url := "u/p.zip", executable := none, dependencies := [] }

/-- Fresh state whose main repository offers the single package p. -/
def worldOnePkg : World :=
  { config := mainRepoCfg
    repoFiles := [("main", { packages := [("p", descPlain)] })]
    registry := [], installDirs := [], cacheEntries := [], shims := [], events := [], clock := 0 }

/-- A registry entry for p as a successful install would record it. -/
def sampleEntry : InstalledPackage :=
  { version := "1.0", path := installPath "p", executable := "p.exe",
    repository := "main", installDate := 0, hash := "h0" }

/-- Same state but with p already registered. -/
def worldInstalled : World := { worldOnePkg with registry := [("p", sampleEntry)] }

/-- Package A declaring a dependency on B. -/
def descDepRoot : PackageDescriptor :=
  { version := some "2.0", url := "u/A.zip", executable := none, dependencies := ["B"] }

/-- Dependency-free package B. -/
def descDepLeaf : PackageDescriptor :=
  { version := some "3.0", url := "u/B.zip", executable := none, dependencies := [] }

/-- Fresh state where A depends on B and both are available from main. -/
def worldDep : World :=
  { config := mainRepoCfg
    repoFiles := [("main", { packages := [("A", descDepRoot), ("B", descDepLeaf)] })]
    registry := [], installDirs := [], cacheEntries := [], shims := [], events := [], clock := 0 }

/-- Package A of a two-cycle: A depends on B. -/
def descCycA : PackageDescriptor :=
  { version := some "1.0", url := "u/A.zip", executable := none, dependencies := ["B"] }

/-- Package B of a two-cycle: B depends on A. -/
def descCycB : PackageDescriptor :=
  { version := some "1.0", url := "u/B.zip", executable := none, dependencies := ["A"] }

/-- Fresh state with the simple cyclic dependency graph A and B, neither
installed. -/
def worldCycle : World :=
  { config := mainRepoCfg
    repoFiles := [("main", { packages := [("A", descCycA), ("B", descCycB)] })]
    registry := [], installDirs := [], cacheEntries := [], shims := [], events := [], clock := 0 }

/-- The empty state: nothing configured, nothing cached, nothing installed. -/
def worldEmpty : World :=
  { config := { repositories := [] }
    repoFiles := [], registry := [], installDirs := [], cacheEntries := [], shims := [],
    events := [], clock := 0 }

/-- A cache holding a zip file and a subdirectory, to exercise cleanup. -/
def worldCacheMix : World :=
  { worldInstalled with
    cacheEntries := [{ name := "a.zip", isFile := true }, { name := "sub", isFile := false }] }

/-- The descriptor for foo offered by the repository named extras. -/
def descFooExtras : PackageDescriptor :=
  { version := some "9.0", url := "e/foo.zip", executable := none, dependencies := [] }

/-- The descriptor for foo offered by the repository named alpha. -/
def descFooAlpha : PackageDescriptor :=
  { version := some "1.0", url := "a/foo.zip", executable := none, dependencies := [] }

/-- A state whose configuration lists extras (priority 2) before alpha
(priority 1), both providing foo.  Such a configuration arises from a
hand-edited config file, which the spec admits as an external interface. -/
def worldPrio : World :=
  { config := { repositories :=
      [("extras", { url := "e/", priority := 2 }), ("alpha", { url := "a/", priority := 1 })] }
    repoFiles :=
      [("extras", { packages := [("foo", descFooExtras)] }),
       ("alpha", { packages := [("foo", descFooAlpha)] })]
    registry := [], installDirs := [], cacheEntries := [], shims := [], events := [], clock := 0 }

/-- The cyclic two-package state, parameterized by the event trace so that
the divergence argument can follow the recursion, which only ever touches
the events field before recursing. -/
def worldCycleEv (evs : List Event) : World :=
  { config := mainRepoCfg
    repoFiles := [("main", { packages := [("A", descCycA), ("B", descCycB)] })]
    registry := [], installDirs := [], cacheEntries := [], shims := [], events := evs, clock := 0 }

/-- A state whose main repository offers app, whose only declared
dependency missinglib is offered nowhere. -/
def worldMissingDep : World :=
  { config := mainRepoCfg
    repoFiles := [("main",
      { packages := [("app",
          { version := some "1.0", url := "u/app.zip", executable := none,
            dependencies := ["missinglib"] })] })]
    registry := [], installDirs := [], cacheEntries := [], shims := [], events := [], clock := 0 }

/-- The available descriptor for p used by the update-check witness. -/
def updDesc : PackageDescriptor :=
  { version := some "2.0", url := "u/p.zip", executable := none, dependencies := [] }

/-- The registry entry of the installed p used by the update-check witness. -/
def updEntry : InstalledPackage :=
  { version := "1.0", path := installPath "p", executable := "p.exe",
    repository := "main", installDate := 0, hash := "h0" }

/-- State with p installed at version 1.0 while main offers version 2.0. -/
def worldUpd : World :=
  { config := mainRepoCfg
    repoFiles := [("main", { packages := [("p", updDesc)] })]
    registry := [("p", updEntry)]
    installDirs := [installPath "p"], cacheEntries := [], shims := ["p"],
    events := [], clock := 1 }

/-! ## Claim C1 -/

/-- Claim C1 evaluation at the failing input: installing p from a fresh
state where the download succeeds but extraction fails returns the failure
result and commits no registry entry (that much matches the claim), but the
freshly created install directory packages/p is left behind instead of
being removed, contradicting the cleanup-on-failure requirement. -/
theorem C1_extract_failure_leaves_directory :
    (install_package sampleEnvBadArchive 3 worldOnePkg "p" none none).1 = Except.ok false ∧
    (install_package sampleEnvBadArchive 3 worldOnePkg "p" none none).2.registry = [] ∧
    installPath "p" ∈ (install_package sampleEnvBadArchive 3 worldOnePkg "p" none none).2.installDirs ∧
    (install_package sampleEnvBadArchive 3 worldOnePkg "p" none none).2.shims = [] := by
  decide

/-! ## Claim C4 -/

/-- Claim C4: calling install on a package already present in the registry
returns the AlreadyInstalled failure result (False) and performs no side
effects at all: the resulting world is the input world, so registry,
config, cache, install directories and shims are untouched. -/
theorem C4_already_installed_no_side_effects (env : Env) (fuel : Nat) (w : World)
    (packageName : String) (versionArg repoName : Option String)
    (h : (w.registry.lookup packageName).isSome) :
    install_package env (fuel + 1) w packageName versionArg repoName = (Except.ok false, w) := by
  simp [install_package, h]

/-- Claim C4 witness: with p registered, install of p returns False and the
unchanged world. -/
theorem C4_already_installed_witness :
    install_package sampleEnvOk 1 worldInstalled "p" none none = (Except.ok false, worldInstalled) :=
  C4_already_installed_no_side_effects sampleEnvOk 0 worldInstalled "p" none none (by decide)

/-! ## Claim C10 -/

/-- Claim C10: when install is called with an explicit repository pin whose
cached manifest file does not exist, load_repository returns None and
subscripting it raises TypeError (modelled as the typeError outcome) with
the world unchanged, instead of returning a NotFound result.  The package
must not already be registered, since the AlreadyInstalled guard runs
before the lookup. -/
theorem C10_missing_pinned_manifest_raises (env : Env) (fuel : Nat) (w : World)
    (packageName pinnedRepo : String) (versionArg : Option String)
    (hN : w.registry.lookup packageName = none)
    (hR : w.repoFiles.lookup pinnedRepo = none) :
    install_package env (fuel + 1) w packageName versionArg (some pinnedRepo) =
      (Except.error PyErr.typeError, w) := by
  simp [install_package, load_repository, hN, hR]

/-- Claim C10 witness: pinning the never-fetched repository main in the
empty state raises the modelled TypeError. -/
theorem C10_missing_pinned_manifest_witness :
    install_package sampleEnvOk 1 worldEmpty "p" none (some "main") =
      (Except.error PyErr.typeError, worldEmpty) :=
  C10_missing_pinned_manifest_raises sampleEnvOk 0 worldEmpty "p" "main" none
    (by decide) (by decide)

/-! ## Claim C5 -/

/-- Claim C5 evaluation at the failing input: installing A (which depends
on the available, not yet installed B) from a fresh state registers B first
(the event trace shows the commit of B before the commit of A, and the
files of B are on disk), but the final registry write of A uses the
registry snapshot loaded before the dependency installs, so the entry of B
is clobbered: after the install of A completes, B is no longer in the
registry. -/
theorem C5_dependency_registration_clobbered :
    (install_package sampleEnvOk 5 worldDep "A" none none).1 = Except.ok true ∧
    (install_package sampleEnvOk 5 worldDep "A" none none).2.events =
      [Event.registered "B", Event.registered "A"] ∧
    (install_package sampleEnvOk 5 worldDep "A" none none).2.registry.lookup "B" = none ∧
    ((install_package sampleEnvOk 5 worldDep "A" none none).2.registry.lookup "A").isSome ∧
    installPath "B" ∈ (install_package sampleEnvOk 5 worldDep "A" none none).2.installDirs ∧
    "B" ∈ (install_package sampleEnvOk 5 worldDep "A" none none).2.shims := by
  decide

/-! ## Dictionary lemmas -/

/-- Looking up a key just assigned with dictInsert yields the new value. -/
theorem lookup_dictInsert_self {α : Type} (k : String) (v : α) :
    ∀ l : List (String × α), (dictInsert k v l).lookup k = some v := by
  intro l
  induction l with
  | nil => simp [dictInsert, List.lookup]
  | cons kv rest ih =>
    rcases kv with ⟨k0, v0⟩
    by_cases hk : k0 = k
    · simp [dictInsert, hk, List.lookup]
    · have hk2 : (k == k0) = false := by
        simp [hk]
        intro hc
        exact hk hc.symm
      simp [dictInsert, hk, List.lookup, hk2, ih]

/-- Lookup misses when the key is not among the keys of the list. -/
theorem lookup_eq_none_of_not_mem_keys {α : Type} (k : String) :
    ∀ l : List (String × α), k ∉ l.map Prod.fst → l.lookup k = none := by
  intro l
  induction l with
  | nil => intro _; rfl
  | cons kv rest ih =>
    rcases kv with ⟨k0, v0⟩
    intro hmem
    simp only [List.map, List.mem_cons, not_or] at hmem
    have hk2 : (k == k0) = false := by
      simp
      exact hmem.1
    simp [List.lookup, hk2, ih hmem.2]

/-- After deleting a key from a list with no duplicate keys, looking it up
misses. -/
theorem lookup_dictErase_self {α : Type} (k : String) :
    ∀ l : List (String × α), (l.map Prod.fst).Nodup → (dictErase k l).lookup k = none := by
  intro l
  induction l with
  | nil => intro _; rfl
  | cons kv rest ih =>
    rcases kv with ⟨k0, v0⟩
    intro hnd
    simp only [List.map, List.nodup_cons] at hnd
    by_cases hk : k0 = k
    · subst hk
      simp only [dictErase, if_pos rfl]
      exact lookup_eq_none_of_not_mem_keys k0 rest hnd.1
    · have hk2 : (k == k0) = false := by
        simp
        intro hc
        exact hk hc.symm
      simp [dictErase, hk, List.lookup, hk2, ih hnd.2]

/-- Deleting one key leaves lookups of every other key unchanged. -/
theorem lookup_dictErase_other {α : Type} (k m : String) (hne : m ≠ k) :
    ∀ l : List (String × α), (dictErase k l).lookup m = l.lookup m := by
  intro l
  induction l with
  | nil => rfl
  | cons kv rest ih =>
    rcases kv with ⟨k0, v0⟩
    by_cases hk : k0 = k
    · subst hk
      have hm : (m == k0) = false := by
        simp
        exact hne
      simp [dictErase, List.lookup, hm]
    · by_cases hm : m = k0
      · subst hm
        simp [dictErase, hk, List.lookup]
      · have hm2 : (m == k0) = false := by
          simp
          exact hm
        simp [dictErase, hk, List.lookup, hm2, ih]

/-! ## Claim C7 -/

/-- Claim C7: uninstalling a package not in the registry returns the
NotFound failure result (False) with the state unchanged; uninstalling a
registered package succeeds and removes its registry entry (so a
subsequent isInstalled lookup misses), its install directory and its shim,
keeps every other registry entry, every other directory and every other
shim, and leaves config, cached manifests, cache entries and events
untouched.  The no-duplicate-keys hypothesis holds of any registry read
from a JSON object. -/
theorem C7_uninstall_behavior (w : World) (packageName : String) :
    (w.registry.lookup packageName = none → uninstall w packageName = (false, w)) ∧
    (∀ entry, w.registry.lookup packageName = some entry →
      (w.registry.map Prod.fst).Nodup →
      (uninstall w packageName).1 = true ∧
      (uninstall w packageName).2.registry.lookup packageName = none ∧
      entry.path ∉ (uninstall w packageName).2.installDirs ∧
      packageName ∉ (uninstall w packageName).2.shims ∧
      (∀ other, other ≠ packageName →
        (uninstall w packageName).2.registry.lookup other = w.registry.lookup other) ∧
      (∀ p ∈ w.installDirs, p ≠ entry.path → p ∈ (uninstall w packageName).2.installDirs) ∧
      (∀ s ∈ w.shims, s ≠ packageName → s ∈ (uninstall w packageName).2.shims) ∧
      (uninstall w packageName).2.config = w.config ∧
      (uninstall w packageName).2.repoFiles = w.repoFiles ∧
      (uninstall w packageName).2.cacheEntries = w.cacheEntries ∧
      (uninstall w packageName).2.events = w.events) := by
  constructor
  · intro h
    simp [uninstall, h]
  · intro entry h hnd
    simp only [uninstall, h]
    refine ⟨trivial, ?_, ?_, ?_, ?_, ?_, ?_, trivial, trivial, trivial, trivial⟩
    · exact lookup_dictErase_self packageName w.registry hnd
    · simp [List.mem_filter]
    · simp [List.mem_filter]
    · intro other hne
      exact lookup_dictErase_other packageName other hne w.registry
    · intro p hp hne
      simp [List.mem_filter, hp, hne]
    · intro s hs hne
      simp [List.mem_filter, hs, hne]

/-- Claim C7 witness: in the state with p registered, uninstalling q (not
registered) changes nothing, and uninstalling p succeeds with the entry,
directory and shim gone afterwards. -/
theorem C7_uninstall_witness :
    uninstall { worldInstalled with installDirs := [installPath "p"], shims := ["p"] } "q" =
      (false, { worldInstalled with installDirs := [installPath "p"], shims := ["p"] }) ∧
    ((uninstall { worldInstalled with installDirs := [installPath "p"], shims := ["p"] } "p").1 = true ∧
      (uninstall { worldInstalled with installDirs := [installPath "p"], shims := ["p"] } "p").2.registry.lookup "p" = none ∧
      sampleEntry.path ∉ (uninstall { worldInstalled with installDirs := [installPath "p"], shims := ["p"] } "p").2.installDirs ∧
      "p" ∉ (uninstall { worldInstalled with installDirs := [installPath "p"], shims := ["p"] } "p").2.shims) := by
  constructor
  · exact (C7_uninstall_behavior _ "q").1 (by decide)
  · have h := (C7_uninstall_behavior { worldInstalled with installDirs := [installPath "p"], shims := ["p"] } "p").2
      sampleEntry (by decide) (by decide)
    exact ⟨h.1, h.2.1, h.2.2.1, h.2.2.2.1⟩

/-! ## Claim C8 -/

/-- Claim C8 counterexample: cleanup only unlinks the entries of the cache
directory that are regular files, so a cache containing a subdirectory is
not left empty: the subdirectory entry survives. -/
theorem C8_cleanup_not_empty_counterexample :
    (cleanup worldCacheMix).cacheEntries ≠ [] ∧
    ({ name := "sub", isFile := false } : CacheEntry) ∈ (cleanup worldCacheMix).cacheEntries := by
  decide

/-- Claim C8 amended: cleanup deletes exactly the regular-file entries
directly under the cache directory (directory entries survive), and leaves
the registry, the config, the cached manifests, the install directories
and the shims unchanged. -/
theorem C8_amended_cleanup_files_only (w : World) :
    (∀ e ∈ w.cacheEntries, e.isFile = true → e ∉ (cleanup w).cacheEntries) ∧
    (∀ e ∈ w.cacheEntries, e.isFile = false → e ∈ (cleanup w).cacheEntries) ∧
    (∀ e ∈ (cleanup w).cacheEntries, e ∈ w.cacheEntries ∧ e.isFile = false) ∧
    (cleanup w).registry = w.registry ∧
    (cleanup w).config = w.config ∧
    (cleanup w).repoFiles = w.repoFiles ∧
    (cleanup w).installDirs = w.installDirs ∧
    (cleanup w).shims = w.shims := by
  refine ⟨?_, ?_, ?_, rfl, rfl, rfl, rfl, rfl⟩
  · intro e he hf
    simp [cleanup, List.mem_filter, hf]
  · intro e he hf
    simp [cleanup, List.mem_filter, he, hf]
  · intro e he
    simp only [cleanup, List.mem_filter] at he
    exact ⟨he.1, by simpa using he.2⟩

/-- Claim C8 amended witness: in the mixed cache, the zip file is removed
by cleanup, the subdirectory survives, and the registry is untouched. -/
theorem C8_amended_cleanup_witness :
    ({ name := "a.zip", isFile := true } : CacheEntry) ∉ (cleanup worldCacheMix).cacheEntries ∧
    ({ name := "sub", isFile := false } : CacheEntry) ∈ (cleanup worldCacheMix).cacheEntries ∧
    (cleanup worldCacheMix).registry = worldCacheMix.registry := by
  have h := C8_amended_cleanup_files_only worldCacheMix
  exact ⟨h.1 _ (by decide) (by decide), h.2.1 _ (by decide) (by decide), h.2.2.2.1⟩

/-! ## Claim C3 -/

/-- Claim C3 counterexample: with extras (priority 2) listed before alpha
(priority 1) and both providing foo, the first element returned by
find_package, and the descriptor an unpinned install registers, come from
extras, not from the repository with the numerically lowest priority
value. -/
theorem C3_priority_ignored_counterexample :
    (find_package worldPrio "foo").head? = some (descFooExtras, "extras") ∧
    providesDesc worldPrio "alpha" "foo" = some descFooAlpha ∧
    (worldPrio.config.repositories.lookup "alpha").map RepoInfo.priority = some 1 ∧
    (worldPrio.config.repositories.lookup "extras").map RepoInfo.priority = some 2 ∧
    descFooExtras ≠ descFooAlpha ∧
    ((install_package sampleEnvOk 1 worldPrio "foo" none none).2.registry.lookup "foo").map
      (fun e => e.repository) = some "extras" := by
  decide

/-- Claim C3 amended: the head of find_package, when it exists, comes from
the first repository in configuration iteration (insertion) order whose
cached manifest provides the package; every repository listed earlier
provides nothing for that name, and the configured priority values play no
role. -/
theorem C3_amended_first_in_config_order (w : World) (packageName : String)
    (d : PackageDescriptor) (rn : String) (rest : List (PackageDescriptor × String))
    (h : find_package w packageName = (d, rn) :: rest) :
    ∃ pre info post,
      w.config.repositories = pre ++ (rn, info) :: post ∧
      providesDesc w rn packageName = some d ∧
      ∀ p ∈ pre, providesDesc w p.1 packageName = none := by
  have main : ∀ (rs : List (String × RepoInfo)),
      findIn w packageName rs = (d, rn) :: rest →
      ∃ pre info post, rs = pre ++ (rn, info) :: post ∧
        providesDesc w rn packageName = some d ∧
        ∀ p ∈ pre, providesDesc w p.1 packageName = none := by
    intro rs
    induction rs with
    | nil => intro hc; simp [findIn] at hc
    | cons hd tl ih =>
      rcases hd with ⟨rn0, info0⟩
      intro hc
      simp only [findIn] at hc
      cases hload : load_repository w rn0 with
      | none =>
        simp only [hload] at hc
        obtain ⟨pre, info, post, heq, hprov, hpre⟩ := ih hc
        refine ⟨(rn0, info0) :: pre, info, post, by simp [heq], hprov, ?_⟩
        intro p hp
        rcases List.mem_cons.mp hp with hp0 | hp1
        · subst hp0
          simp [providesDesc, hload]
        · exact hpre p hp1
      | some repoData =>
        simp only [hload] at hc
        cases hfind : repoData.packages.lookup packageName with
        | none =>
          simp only [hfind] at hc
          obtain ⟨pre, info, post, heq, hprov, hpre⟩ := ih hc
          refine ⟨(rn0, info0) :: pre, info, post, by simp [heq], hprov, ?_⟩
          intro p hp
          rcases List.mem_cons.mp hp with hp0 | hp1
          · subst hp0
            simp [providesDesc, hload, hfind]
          · exact hpre p hp1
        | some d0 =>
          simp only [hfind, List.cons.injEq, Prod.mk.injEq] at hc
          obtain ⟨⟨hdd, hrr⟩, _⟩ := hc
          subst hdd
          subst hrr
          exact ⟨[], info0, tl, rfl, by simp [providesDesc, hload, hfind], by simp⟩
  exact main w.config.repositories h

/-- Claim C3 amended witness: at the priority-inverted configuration, the
head of find_package for foo decomposes the repository list at extras,
which provides descFooExtras, with no earlier provider. -/
theorem C3_amended_witness :
    ∃ pre info post,
      worldPrio.config.repositories = pre ++ (("extras", info) : String × RepoInfo) :: post ∧
      providesDesc worldPrio "extras" "foo" = some descFooExtras ∧
      ∀ p ∈ pre, providesDesc worldPrio p.1 "foo" = none :=
  C3_amended_first_in_config_order worldPrio "foo" descFooExtras "extras"
    [(descFooAlpha, "alpha")] (by decide)

/-! ## Claim C2 -/

/-- On the cyclic graph with neither package installed, install of A and
install of B both exhaust every recursion budget: the already-installed
check cannot break the cycle because registration only happens after the
dependency installs return. -/
theorem cycleDivergesAux : ∀ fuel : Nat, ∀ evs : List Event,
    (install_package sampleEnvOk fuel (worldCycleEv evs) "A" none none).1 =
      Except.error PyErr.recursionError ∧
    (install_package sampleEnvOk fuel (worldCycleEv evs) "B" none none).1 =
      Except.error PyErr.recursionError := by
  intro fuel
  induction fuel with
  | zero => intro evs; exact ⟨rfl, rfl⟩
  | succ n ih =>
    intro evs
    have hupd : ({ worldCycleEv evs with events := (worldCycleEv evs).events ++ [] } : World) =
        worldCycleEv evs := by
      simp [worldCycleEv]
    constructor
    · have hreg : ((worldCycleEv evs).registry.lookup "A").isSome = false := rfl
      have hfind : find_package (worldCycleEv evs) "A" = [(descCycA, "main")] := rfl
      have hrd : resolve_dependencies (worldCycleEv evs) descCycA =
          ([("B", (descCycB, "main"))], []) := rfl
      simp only [install_package, hreg, hfind, hrd, Bool.false_eq_true, if_false, List.map,
        hupd, depLoop]
      rcases hB : install_package sampleEnvOk n (worldCycleEv evs) "B" none none with ⟨r, w2⟩
      have hIH := (ih evs).2
      rw [hB] at hIH
      simp only at hIH
      rw [hIH]
    · have hreg : ((worldCycleEv evs).registry.lookup "B").isSome = false := rfl
      have hfind : find_package (worldCycleEv evs) "B" = [(descCycB, "main")] := rfl
      have hrd : resolve_dependencies (worldCycleEv evs) descCycB =
          ([("A", (descCycA, "main"))], []) := rfl
      simp only [install_package, hreg, hfind, hrd, Bool.false_eq_true, if_false, List.map,
        hupd, depLoop]
      rcases hA : install_package sampleEnvOk n (worldCycleEv evs) "A" none none with ⟨r, w2⟩
      have hIH := (ih evs).1
      rw [hA] at hIH
      simp only at hIH
      rw [hIH]

/-- Claim C2 counterexample: on the simple cyclic graph (A depends on B, B
depends on A, neither installed) the install procedure does not terminate:
there is no recursion budget under which install of A returns anything but
the recursion-limit error.  The skip logic consults only the registry,
which is still empty while the cycle recurses, so it never breaks the
cycle. -/
theorem C2_cycle_no_termination_counterexample :
    ¬ ∃ fuel : Nat, (install_package sampleEnvOk fuel worldCycle "A" none none).1 ≠
      Except.error PyErr.recursionError := by
  rintro ⟨fuel, hne⟩
  exact hne (cycleDivergesAux fuel []).1

/-- Claim C2 amended: installation does skip a package already recorded in
the registry without re-adding it (returning False and leaving the state
unchanged), but there is no plan-membership tracking: on the simple cyclic
dependency graph with neither package installed, the recursive install
exhausts every recursion budget instead of terminating, because packages
are registered only after their dependency installs return. -/
theorem C2_amended_skip_only_registry :
    (∀ (env : Env) (fuel : Nat) (w : World) (packageName : String)
        (versionArg repoName : Option String),
        (w.registry.lookup packageName).isSome →
        install_package env (fuel + 1) w packageName versionArg repoName = (Except.ok false, w)) ∧
    worldCycle.registry = [] ∧
    (∀ fuel : Nat, (install_package sampleEnvOk fuel worldCycle "A" none none).1 =
      Except.error PyErr.recursionError) := by
  refine ⟨?_, rfl, ?_⟩
  · intro env fuel w packageName versionArg repoName h
    simp [install_package, h]
  · intro fuel
    exact (cycleDivergesAux fuel []).1

/-- Claim C2 amended witness: with p registered, install of p at the
smallest budget skips; on the cyclic state, install of A at budget 9
exhausts the budget. -/
theorem C2_amended_witness :
    install_package sampleEnvOk 1 worldInstalled "p" none none = (Except.ok false, worldInstalled) ∧
    (install_package sampleEnvOk 9 worldCycle "A" none none).1 =
      Except.error PyErr.recursionError :=
  ⟨C2_amended_skip_only_registry.1 sampleEnvOk 0 worldInstalled "p" none none (by decide),
   C2_amended_skip_only_registry.2.2 9⟩

/-! ## Claim C6 -/

/-- Every name kept by the resolution loop was a declared dependency whose
find_package lookup returned at least one descriptor, so a dependency name
that resolves to zero descriptors is dropped from the resolved list. -/
theorem resolveDepsList_kept_names (w : World) :
    ∀ deps : List String, ∀ x, x ∈ (resolveDepsList w deps).1.map Prod.fst →
      x ∈ deps ∧ find_package w x ≠ [] := by
  intro deps
  induction deps with
  | nil =>
    intro x hx
    simp [resolveDepsList] at hx
  | cons dep rest ih =>
    intro x hx
    simp only [resolveDepsList] at hx
    cases hf : find_package w dep with
    | nil =>
      simp only [hf] at hx
      obtain ⟨h1, h2⟩ := ih x hx
      exact ⟨List.mem_cons_of_mem dep h1, h2⟩
    | cons first tail =>
      simp only [hf, List.map, List.mem_cons] at hx
      rcases hx with hx0 | hx1
      · subst hx0
        exact ⟨List.mem_cons_self x rest, by rw [hf]; simp⟩
      · obtain ⟨h1, h2⟩ := ih x hx1
        exact ⟨List.mem_cons_of_mem dep h1, h2⟩

/-- Every declared dependency whose lookup comes back empty produces the
printed warning. -/
theorem resolveDepsList_warns (w : World) :
    ∀ deps : List String, ∀ dep, dep ∈ deps → find_package w dep = [] →
      Event.warnedMissingDep dep ∈ (resolveDepsList w deps).2 := by
  intro deps
  induction deps with
  | nil =>
    intro dep h
    simp at h
  | cons d0 rest ih =>
    intro dep hmem hfail
    rcases List.mem_cons.mp hmem with h0 | h1
    · subst h0
      simp only [resolveDepsList, hfail]
      exact List.mem_cons_self _ _
    · simp only [resolveDepsList]
      cases hf : find_package w d0 with
      | nil => exact List.mem_cons_of_mem _ (ih dep h1 hfail)
      | cons first tail => exact ih dep h1 hfail

/-- Claim C6: a declared dependency that resolves to zero descriptors is
dropped from the resolved list with a warning, and the install of the
requesting package still proceeds: with the missing dependency as the only
declared one and the download and extraction of the requester succeeding,
install returns success, registers the requester, and the warning for the
missing dependency is in the trace. -/
theorem C6_missing_dependency_nonfatal :
    (∀ (w : World) (info : PackageDescriptor) (dep : String),
        dep ∈ info.dependencies → find_package w dep = [] →
        dep ∉ (resolve_dependencies w info).1.map Prod.fst ∧
        Event.warnedMissingDep dep ∈ (resolve_dependencies w info).2) ∧
    (∀ (env : Env) (fuel : Nat) (w : World) (p dep : String)
        (d : PackageDescriptor) (rn : String) (rest : List (PackageDescriptor × String)),
        w.registry.lookup p = none →
        find_package w p = (d, rn) :: rest →
        d.dependencies = [dep] →
        find_package w dep = [] →
        env.downloadOk d.url = true →
        env.extractOk (p ++ "_" ++ (d.version.getD "1.0.0") ++ ".zip") = true →
        (install_package env (fuel + 1) w p none none).1 = Except.ok true ∧
        ((install_package env (fuel + 1) w p none none).2.registry.lookup p).isSome ∧
        Event.warnedMissingDep dep ∈ (install_package env (fuel + 1) w p none none).2.events) := by
  constructor
  · intro w info dep hmem hfail
    constructor
    · intro hkept
      exact ((resolveDepsList_kept_names w info.dependencies dep hkept).2) hfail
    · exact resolveDepsList_warns w info.dependencies dep hmem hfail
  · intro env fuel w p dep d rn rest hn hf hdeps hmiss hdl hex
    have hrd : resolve_dependencies w d = ([], [Event.warnedMissingDep dep]) := by
      simp [resolve_dependencies, hdeps, resolveDepsList, hmiss]
    simp only [install_package, hn, hf, hrd, depLoop, List.map, Option.isSome_none,
      Bool.false_eq_true, if_false, pyOr, hdl, if_true, hex]
    refine ⟨trivial, ?_, ?_⟩
    · rw [lookup_dictInsert_self]
      rfl
    · simp

/-- Claim C6 witness: installing app, whose manifest lists the nowhere-
available dependency missinglib, still succeeds, registers app and records
the warning. -/
theorem C6_missing_dependency_witness :
    (install_package sampleEnvOk 1 worldMissingDep "app" none none).1 = Except.ok true ∧
    ((install_package sampleEnvOk 1 worldMissingDep "app" none none).2.registry.lookup "app").isSome ∧
    Event.warnedMissingDep "missinglib" ∈
      (install_package sampleEnvOk 1 worldMissingDep "app" none none).2.events :=
  C6_missing_dependency_nonfatal.2 sampleEnvOk 0 worldMissingDep "app" "missinglib"
    { version := some "1.0", url := "u/app.zip", executable := none,
      dependencies := ["missinglib"] } "main" []
    (by decide) (by decide) (by decide) (by decide) (by decide) (by decide)

/-! ## Claim C9 -/

/-- The update loop, when it returns without raising, reports soundly
(every report names a registered package whose first available descriptor
carries a version string different from the installed one) and completely
(every registered package in that situation is reported). -/
theorem updateLoop_spec (w : World) :
    ∀ (l : List (String × InstalledPackage)) (reports : List UpdateReport),
      updateLoop w l = Except.ok reports →
      (∀ rep ∈ reports,
        ∃ n e, (n, e) ∈ l ∧ rep.name = n ∧ rep.installedVersion = e.version ∧
          (∃ d rn, (find_package w n).head? = some (d, rn) ∧ d.version = some rep.availableVersion) ∧
          rep.availableVersion ≠ e.version) ∧
      (∀ n e, (n, e) ∈ l →
        ∀ d rn av, (find_package w n).head? = some (d, rn) → d.version = some av →
          av ≠ e.version →
          ∃ rep, rep ∈ reports ∧ rep.name = n ∧ rep.installedVersion = e.version ∧
            rep.availableVersion = av) := by
  intro l
  induction l with
  | nil =>
    intro reports h
    simp only [updateLoop, Except.ok.injEq] at h
    subst h
    constructor
    · intro rep hrep
      simp at hrep
    · intro n e hmem
      simp at hmem
  | cons pair rest ih =>
    rcases pair with ⟨n, e⟩
    intro reports h
    simp only [updateLoop] at h
    cases hf : find_package w n with
    | nil =>
      simp only [hf] at h
      obtain ⟨hs, hc⟩ := ih reports h
      constructor
      · intro rep hrep
        obtain ⟨n1, e1, hmem, h1, h2, h3, h4⟩ := hs rep hrep
        exact ⟨n1, e1, List.mem_cons_of_mem _ hmem, h1, h2, h3, h4⟩
      · intro n1 e1 hmem d rn av hhead hv hne
        rcases List.mem_cons.mp hmem with h0 | h1
        · cases h0
          rw [hf] at hhead
          simp at hhead
        · exact hc n1 e1 h1 d rn av hhead hv hne
    | cons hd tl =>
      rcases hd with ⟨d0, rn0⟩
      simp only [hf] at h
      cases hv0 : d0.version with
      | none =>
        rw [hv0] at h
        simp at h
      | some av0 =>
        rw [hv0] at h
        by_cases heq : av0 = e.version
        · simp only [heq, ne_eq, not_true_eq_false, if_neg, ite_false] at h
          have h2 : updateLoop w rest = Except.ok reports := by
            simpa using h
          obtain ⟨hs, hc⟩ := ih reports h2
          constructor
          · intro rep hrep
            obtain ⟨n1, e1, hmem, ha, hb, hcx, hdx⟩ := hs rep hrep
            exact ⟨n1, e1, List.mem_cons_of_mem _ hmem, ha, hb, hcx, hdx⟩
          · intro n1 e1 hmem d rn av hhead hvv hne
            rcases List.mem_cons.mp hmem with h0 | h1
            · cases h0
              rw [hf] at hhead
              simp only [List.head?] at hhead
              cases hhead
              rw [hv0] at hvv
              cases hvv
              exact absurd heq hne
            · exact hc n1 e1 h1 d rn av hhead hvv hne
        · simp only [ne_eq, heq, not_false_eq_true, if_pos, ite_true] at h
          cases hrest : updateLoop w rest with
          | error err =>
            rw [hrest] at h
            simp [Except.map] at h
          | ok l2 =>
            rw [hrest] at h
            simp only [Except.map, Except.ok.injEq] at h
            subst h
            obtain ⟨hs, hc⟩ := ih l2 hrest
            constructor
            · intro rep hrep
              rcases List.mem_cons.mp hrep with h0 | h1
              · subst h0
                refine ⟨n, e, List.mem_cons_self _ _, rfl, rfl, ⟨d0, rn0, ?_, hv0⟩, heq⟩
                rw [hf]
                rfl
              · obtain ⟨n1, e1, hmem, ha, hb, hcx, hdx⟩ := hs rep h1
                exact ⟨n1, e1, List.mem_cons_of_mem _ hmem, ha, hb, hcx, hdx⟩
            · intro n1 e1 hmem d rn av hhead hvv hne
              rcases List.mem_cons.mp hmem with h0 | h1
              · cases h0
                rw [hf] at hhead
                simp only [List.head?, Option.some.injEq] at hhead
                cases hhead
                rw [hv0] at hvv
                cases hvv
                exact ⟨_, List.mem_cons_self _ _, rfl, rfl, rfl⟩
              · obtain ⟨rep, hrep, ha, hb, hcx⟩ := hc n1 e1 h1 d rn av hhead hvv hne
                exact ⟨rep, List.mem_cons_of_mem _ hrep, ha, hb, hcx⟩

/-- Claim C9: whenever the no-argument update check returns normally, it
reports an available update exactly for those registered packages whose
best available descriptor (the first find_package match) carries a version
string different, by plain string inequality, from the installed version
string.  The check itself only reads the world: the source loop only calls
load_packages and find_package and prints, which the embedding reflects by
giving update_check no output state. -/
theorem C9_update_report_exact (w : World) (reports : List UpdateReport)
    (h : update_check w = Except.ok reports) :
    (∀ rep ∈ reports,
      ∃ n e, (n, e) ∈ w.registry ∧ rep.name = n ∧ rep.installedVersion = e.version ∧
        (∃ d rn, bestAvailable w n = some (d, rn) ∧ d.version = some rep.availableVersion) ∧
        rep.availableVersion ≠ e.version) ∧
    (∀ n e, (n, e) ∈ w.registry →
      ∀ d rn av, bestAvailable w n = some (d, rn) → d.version = some av → av ≠ e.version →
        ∃ rep, rep ∈ reports ∧ rep.name = n ∧ rep.installedVersion = e.version ∧
          rep.availableVersion = av) := by
  have hs := updateLoop_spec w w.registry reports h
  exact ⟨hs.1, hs.2⟩

/-- Claim C9 witness: with p installed at 1.0 and 2.0 available, the check
returns exactly one report, and the completeness direction of the theorem
produces it. -/
theorem C9_update_report_witness :
    update_check worldUpd =
      Except.ok [{ name := "p", installedVersion := "1.0", availableVersion := "2.0" }] ∧
    ∃ rep, rep ∈ [({ name := "p", installedVersion := "1.0", availableVersion := "2.0" } :
        UpdateReport)] ∧
      rep.name = "p" ∧
      rep.installedVersion = updEntry.version ∧
      rep.availableVersion = "2.0" := by
  refine ⟨by decide, ?_⟩
  exact (C9_update_report_exact worldUpd
      [{ name := "p", installedVersion := "1.0", availableVersion := "2.0" }] (by decide)).2
    "p" updEntry (by decide) updDesc "main" "2.0" (by decide) (by decide) (by decide)
